import Mathlib

/-!
Verification of the terminal-stream player of the asciimatics repository
(`asciimatics/renderers/players.py`): the `AbstractScreenPlayer` command
dispatch (`_play_content`), the fixed-rate `AnsiArtPlayer` tick and the
timestamp-driven `AsciinemaPlayer` tick.

The player code is embedded faithfully from the source.  The canvas, the
screen constants and the ANSI parser are external collaborators of the
player (their code is not part of the sources under verification); they are
modelled from the specification's contracts and flagged as such in their
doc comments.  Python floats (timestamps, the 0.05 tick quantum) are
modelled as rationals; Python string slicing, floor division and
truthiness are modelled explicitly.
-/

/-- Colour triple (foreground, attribute, background), the player's
`_current_colours` list of three ints. -/
structure Colours where
  fg : ℤ
  attr : ℤ
  bg : ℤ
  deriving DecidableEq, Repr

/-- Modelled from the spec: the screen constants `Screen.COLOUR_WHITE`,
`Screen.A_NORMAL`, `Screen.COLOUR_BLACK` of the external `asciimatics.screen`
module.  The exact numeric values are immaterial to every claim. -/
def initialColours : Colours := ⟨7, 2, 0⟩

/-- One mutation of the canvas, as issued by the player: a `print_at` call,
a `scroll` call or a `clear_buffer` call (the canvas contract of the spec). -/
inductive CanvasOp where
  | printAt (text : List Char) (x y : ℤ) (col : Colours)
  | scroll (n : ℤ)
  | clearBuffer (col : Colours)
  deriving DecidableEq, Repr

/-- Modelled from the spec: the external canvas (`asciimatics.screen.Canvas`).
The spec's contract gives `print_at`, `get_from`, `clear_buffer`, `scroll`
and the properties `width`, `height`, `start_line`.  Cells are addressed by
logical coordinates (scrolling only moves the viewport `start_line`); the
`log` field records every mutation the player issues, in order. -/
structure Canvas where
  width : ℕ
  height : ℕ
  startLine : ℤ
  cells : ℤ → ℤ → Option (Char × Colours)
  log : List CanvasOp

/-- Write the characters of `text` into the cell map at `(x, y)`,
`(x+1, y)`, ... with the given colours. -/
def writeCells (f : ℤ → ℤ → Option (Char × Colours)) :
    List Char → ℤ → ℤ → Colours → (ℤ → ℤ → Option (Char × Colours))
  | [], _, _, _ => f
  | c :: cs, x, y, col =>
      writeCells (fun a b => if a = x ∧ b = y then some (c, col) else f a b) cs (x + 1) y col

/-- Modelled from the spec: `Canvas.print_at(text, x, y, colour, attr, bg)`. -/
def Canvas.printAt (cv : Canvas) (text : List Char) (x y : ℤ) (col : Colours) : Canvas :=
  { cv with cells := writeCells cv.cells text x y col,
            log := cv.log ++ [CanvasOp.printAt text x y col] }

/-- Modelled from the spec: `Canvas.scroll(n)` moves the viewport start. -/
def Canvas.scrollBy (cv : Canvas) (n : ℤ) : Canvas :=
  { cv with startLine := cv.startLine + n, log := cv.log ++ [CanvasOp.scroll n] }

/-- Modelled from the spec: `Canvas.clear_buffer(colour, attr, bg)` blanks
every cell with the given colours. -/
def Canvas.clearBuffer (cv : Canvas) (col : Colours) : Canvas :=
  { cv with cells := fun _ _ => some (' ', col),
            log := cv.log ++ [CanvasOp.clearBuffer col] }

/-- Modelled from the spec: `Canvas.get_from(x, y)`. -/
def Canvas.getFrom (cv : Canvas) (x y : ℤ) : Option (Char × Colours) :=
  cv.cells x y

/-- The mutable state of `AbstractScreenPlayer` that `_play_content` touches:
the canvas plus `_current_colours`, `_show_cursor`, `_cursor_x`, `_cursor_y`,
`_save_cursor_x`, `_save_cursor_y`. -/
structure PlayerState where
  canvas : Canvas
  colours : Colours
  showCursor : Bool
  cursorX : ℤ
  cursorY : ℤ
  saveX : ℤ
  saveY : ℤ

/-- `AbstractScreenPlayer.__init__` / `reset`: cursor and save slot at the
origin, default colours, empty canvas. -/
def initPlayer (height width : ℕ) : PlayerState :=
  { canvas := { width := width, height := height, startLine := 0,
                cells := fun _ _ => none, log := [] },
    colours := initialColours,
    showCursor := false,
    cursorX := 0, cursorY := 0, saveX := 0, saveY := 0 }

/-- The typed commands produced by the parser (the tags of
`asciimatics.parsers.Parser` used by `_play_content`). -/
inductive Command where
  | displayText (text : List Char)
  | changeColours (c : Colours)
  | nextTab
  | moveRelative (dx dy : ℤ)
  | moveAbsolute (x y : Option ℤ)
  | deleteLine (mode : ℤ)
  | deleteChars (n : ℤ)
  | showCursor (b : Bool)
  | saveCursor
  | restoreCursor
  | clearScreen
  deriving DecidableEq, Repr

/-- Python slice `s[:k]` on a list: a negative `k` counts from the end. -/
def pythonTake (k : ℤ) (l : List α) : List α :=
  if k < 0 then l.take ((l.length : ℤ) + k).toNat else l.take k.toNat

/-- Python slice `s[k:]` on a list: a negative `k` counts from the end. -/
def pythonDrop (k : ℤ) (l : List α) : List α :=
  if k < 0 then l.drop ((l.length : ℤ) + k).toNat else l.drop k.toNat

/-- Python `range(a, b)` as a list of integers. -/
def intRange (a b : ℤ) : List ℤ :=
  (List.range (b - a).toNat).map (fun i => a + (i : ℤ))

/-- `AbstractScreenPlayer._print_at`: print with the current colours. -/
def printAtS (s : PlayerState) (text : List Char) (x y : ℤ) : PlayerState :=
  { s with canvas := s.canvas.printAt text x y s.colours }

/-- Scroll the canvas by `n` (the player's `self._canvas.scroll(n)` calls). -/
def scrollS (s : PlayerState) (n : ℤ) : PlayerState :=
  { s with canvas := s.canvas.scrollBy n }

/-- The `Parser.DISPLAY_TEXT` branch of `_play_content` (source lines
92-105): wrap when `cursor_x + len(params) >= width`, splitting the text
with Python slices at `width - cursor_x`; otherwise print in place and
advance `cursor_x`. -/
def dispDisplay (s : PlayerState) (params : List Char) : PlayerState :=
  if s.cursorX + (params.length : ℤ) ≥ (s.canvas.width : ℤ) then
    let part1 := pythonTake ((s.canvas.width : ℤ) - s.cursorX) params
    let part2 := pythonDrop ((s.canvas.width : ℤ) - s.cursorX) params
    let s1 := printAtS s part1 s.cursorX s.cursorY
    let s2 := printAtS s1 part2 0 (s.cursorY + 1)
    let s3 := { s2 with cursorX := (part2.length : ℤ), cursorY := s.cursorY + 1 }
    if s3.cursorY - s3.canvas.startLine ≥ (s3.canvas.height : ℤ) then scrollS s3 1 else s3
  else
    { printAtS s params s.cursorX s.cursorY with cursorX := s.cursorX + (params.length : ℤ) }

/-- The `Parser.DELETE_CHARS` branch (source lines 134-151): a
read-and-rewrite sweep from `cursor_x` to `width`, reading `get_from`
on the live canvas and printing each cell with the cell's own colours. -/
def dispDeleteChars (s : PlayerState) (n : ℤ) : PlayerState :=
  (intRange s.cursorX (s.canvas.width : ℤ)).foldl
    (fun t x =>
      let cell0 := if x + n < (t.canvas.width : ℤ) then t.canvas.getFrom (x + n) t.cursorY
                   else none
      let cell := match cell0 with
        | some c => c
        | none => (' ', t.colours)
      { t with canvas := t.canvas.printAt [cell.1] x t.cursorY cell.2 }) s

/-- One step of the command dispatch of `_play_content` (source lines
92-169), one case per parser command. -/
def dispatchCommand (s : PlayerState) (cmd : Command) : PlayerState :=
  match cmd with
  | .displayText params => dispDisplay s params
  | .changeColours c => { s with colours := c }
  | .nextTab => { s with cursorX := Int.fdiv s.cursorX 8 * 8 + 8 }
  | .moveRelative dx dy =>
      let t := { s with cursorX := s.cursorX + dx, cursorY := s.cursorY + dy }
      if t.cursorY < t.canvas.startLine then scrollS t (t.cursorY - t.canvas.startLine) else t
  | .moveAbsolute mx my =>
      let t := match mx with
        | some x => { s with cursorX := x }
        | none => s
      match my with
        | some y => { t with cursorY := y + t.canvas.startLine }
        | none => t
  | .deleteLine mode =>
      if mode = 0 then
        printAtS s (List.replicate ((s.canvas.width : ℤ) - s.cursorX).toNat ' ')
          s.cursorX s.cursorY
      else if mode = 1 then
        printAtS s (List.replicate s.cursorX.toNat ' ') 0 s.cursorY
      else if mode = 2 then
        printAtS s (List.replicate s.canvas.width ' ') 0 s.cursorY
      else s
  | .deleteChars n => dispDeleteChars s n
  | .showCursor b => { s with showCursor := b }
  | .saveCursor => { s with saveX := s.cursorX, saveY := s.cursorY }
  | .restoreCursor => { s with cursorX := s.saveX, cursorY := s.saveY }
  | .clearScreen =>
      let t := { s with canvas := s.canvas.clearBuffer s.colours }
      { t with cursorX := 0, cursorY := t.canvas.startLine }

/-- The inner command loop of `_play_content`: dispatch a parsed command
stream in order. -/
def playCommands (s : PlayerState) (cmds : List Command) : PlayerState :=
  cmds.foldl dispatchCommand s

/-- Python `text.split("\n")` on a character list: always at least one
(possibly empty) piece. -/
def splitNL : List Char → List (List Char)
  | [] => [[]]
  | c :: rest =>
    if c = '\n' then [] :: splitNL rest
    else
      match splitNL rest with
      | [] => [[c]]
      | r :: rs => (c :: r) :: rs

/-- Modelled from the spec: the external `AnsiTerminalParser`
(`asciimatics.parsers`) on plain printable text, per the parser contract
(`append(line)` then `parse()` yields typed commands).  For a line with no
escape codes the parser yields a single `DISPLAY_TEXT` command carrying the
line, and nothing for an empty line.  Every claim settled through this
definition feeds the player plain text only. -/
def parsePlain (line : List Char) : List Command :=
  if line = [] then [] else [Command.displayText line]

/-- The end-of-line handling of `_play_content` (source lines 170-175):
carriage return, row advance, scroll when the cursor passes the bottom of
the viewport. -/
def newlineAdvance (s : PlayerState) : PlayerState :=
  let t := { s with cursorX := 0, cursorY := s.cursorY + 1 }
  if t.cursorY - t.canvas.startLine ≥ (t.canvas.height : ℤ) then scrollS t 1 else t

/-- The per-line loop of `_play_content`: parse and dispatch each line,
advancing to the next row after every line except the last fragment. -/
def playLines : PlayerState → List (List Char) → PlayerState
  | s, [] => s
  | s, [l] => playCommands s (parsePlain l)
  | s, l :: l2 :: ls => playLines (newlineAdvance (playCommands s (parsePlain l))) (l2 :: ls)

/-- `AbstractScreenPlayer._play_content(text)` (source lines 81-175),
with the parser modelled for plain text. -/
def playContent (s : PlayerState) (text : List Char) : PlayerState :=
  playLines s (splitNL text)

/-- Python `line.rstrip("\r\n")`. -/
def rstripCRLF (l : List Char) : List Char :=
  (l.reverse.dropWhile (fun c => c = '\r' || c = '\n')).reverse

/-- The state of an `AnsiArtPlayer`: the shared player state plus the
remaining undecoded lines of the file (readline at end of file yields an
empty string) and the `strip` / `rate` options. -/
structure AnsiState where
  player : PlayerState
  file : List (List Char)
  strip : Bool
  rate : ℕ

/-- The `while count < self._rate and line != ""` loop of
`AnsiArtPlayer._render_now` (source lines 217-227): the fuel is the number
of loop iterations still allowed by `rate`, `line` is the previously read
(post-strip) line (`None` before the first read). -/
def ansiLoop : ℕ → Option (List Char) → AnsiState → AnsiState
  | 0, _, s => s
  | k + 1, line, s =>
    if line = some [] then s
    else
      let l := s.file.headD []
      let rest := s.file.tail
      let l2 := if s.strip then rstripCRLF l else l
      ansiLoop k (some l2) { s with file := rest, player := playContent s.player l2 }

/-- One render tick of `AnsiArtPlayer._render_now`. -/
def ansiTick (s : AnsiState) : AnsiState :=
  ansiLoop s.rate none s

/-- One decoded asciinema event record `[timestamp, channel, payload]`. -/
structure AscEvent where
  time : ℚ
  channel : List Char
  payload : List Char
  deriving DecidableEq, Repr

/-- Python truthiness of `self._buffer` (`None` or a string). -/
def truthyBuf : Option (List Char) → Bool
  | none => false
  | some l => !l.isEmpty

/-- Python truthiness of `self._max_delay` (`None` or a float). -/
def truthyDelay : Option ℚ → Bool
  | none => false
  | some d => decide (d ≠ 0)

/-- The state of an `AsciinemaPlayer`: the shared player state plus the
virtual clock `_counter`, next event time `_next`, pending `_buffer`,
the remaining undecoded lines of the file (`none` marks a line that fails
JSON decoding; end of list is end of file, where `readline` yields an
empty string and decoding also fails) and the `max_delay` option. -/
structure AscState where
  player : PlayerState
  counter : ℚ
  next : ℚ
  buffer : Option (List Char)
  events : List (Option AscEvent)
  maxDelay : Option ℚ

/-- Result of the event-reading loop of `AsciinemaPlayer._render_now`. -/
structure LoopOut where
  counter : ℚ
  next : ℚ
  buffer : Option (List Char)
  events : List (Option AscEvent)
  player : PlayerState

/-- The `max_delay` clamp of `AsciinemaPlayer._render_now` (source lines
278-279): `if self._max_delay and self._next - self._counter >
self._max_delay: self._counter = self._next - self._max_delay` — note the
Python truthiness test on `max_delay`. -/
def clampDelay (md : Option ℚ) (c t : ℚ) : ℚ :=
  match md with
  | some d => if d ≠ 0 ∧ t - c > d then t - d else c
  | none => c

/-- The `while True` loop of `AsciinemaPlayer._render_now` (source lines
273-285): decode the next record (a decode failure — malformed JSON or end
of file — raises `ValueError`, caught as a `break` with no assignment);
store its time into `_next` and its payload into `_buffer`; when the event
is not yet due, clamp the clock by `max_delay` if the gap is large enough
and stop; otherwise play a truthy payload and continue. -/
def ascLoop (md : Option ℚ) (c : ℚ) :
    ℚ → Option (List Char) → List (Option AscEvent) → PlayerState → LoopOut
  | n, b, [], p => ⟨c, n, b, [], p⟩
  | n, b, none :: rest, p => ⟨c, n, b, rest, p⟩
  | n, b, some e :: rest, p =>
    if e.time > c then
      ⟨clampDelay md c e.time, e.time, some e.payload, rest, p⟩
    else
      ascLoop md c e.time (some e.payload) rest
        (if e.payload.isEmpty then p else playContent p e.payload)

/-- The buffer flush at the top of `AsciinemaPlayer._render_now` (source
lines 270-272): `if self._buffer: play(self._buffer); self._buffer = None`.
A falsy buffer (absent or empty) is neither played nor cleared. -/
def flushBuffer (p : PlayerState) (b : Option (List Char)) :
    PlayerState × Option (List Char) :=
  match b with
  | some l => if l.isEmpty then (p, some l) else (playContent p l, none)
  | none => (p, none)

/-- One render tick of `AsciinemaPlayer._render_now` (source lines
267-287): advance the clock by the 0.05 quantum; when it has reached the
next scheduled event time, flush the pending buffer and run the
event-reading loop. -/
def ascRenderNow (s : AscState) : AscState :=
  let c := s.counter + 1 / 20
  if c ≥ s.next then
    let fb := flushBuffer s.player s.buffer
    let out := ascLoop s.maxDelay c s.next fb.2 s.events fb.1
    { s with player := out.player, counter := out.counter, next := out.next,
             buffer := out.buffer, events := out.events }
  else
    { s with counter := c }

/-- The asciinema header record (first line of the file): `version`,
`width`, `height`. -/
structure AscHeader where
  version : ℤ
  width : ℕ
  height : ℕ
  deriving DecidableEq, Repr

/-- `AsciinemaPlayer.__init__` (source lines 240-265): reject any header
whose version differs from 2 before constructing the player; otherwise the
constructor's `height` / `width` arguments override the header's when
truthy (a Python `None` or 0 falls back to the header). -/
def asciinemaInit (header : AscHeader) (height width : Option ℕ)
    (maxDelay : Option ℚ) (events : List (Option AscEvent)) :
    Except String AscState :=
  if header.version ≠ 2 then
    Except.error ("Unsupported file format")
  else
    let h := match height with
      | some x => if x ≠ 0 then x else header.height
      | none => header.height
    let w := match width with
      | some x => if x ≠ 0 then x else header.width
      | none => header.width
    Except.ok { player := initPlayer h w, counter := 0, next := 0,
                buffer := none, events := events, maxDelay := maxDelay }

/-- A canvas mutation stays inside the declared width: a `print_at` whose
text is non-empty must target columns `x, ..., x + len - 1` all within
`0 .. width - 1`; scroll and clear operations are not column writes. -/
def colsWithinWidth (w : ℕ) : CanvasOp → Bool
  | CanvasOp.printAt t x _ _ =>
      t.isEmpty || (decide (0 ≤ x) && decide (x + (t.length : ℤ) ≤ (w : ℤ)))
  | _ => true

/-- An asciinema state whose file is exhausted and whose buffer is falsy. -/
def ascExhausted : AscState :=
  { player := initPlayer 3 4, counter := 0, next := 0, buffer := none,
    events := [], maxDelay := none }

/-- An asciinema state whose next record is malformed JSON and is followed
by a well-formed due event with a non-empty payload. -/
def ascMalformed : AscState :=
  { player := initPlayer 5 5, counter := 0, next := 0, buffer := none,
    events := [none, some ⟨0, ['o'], ['h', 'i']⟩], maxDelay := none }

/-- An asciinema state constructed with `max_delay = 0` whose next event is
far in the future. -/
def ascZeroDelay : AscState :=
  { player := initPlayer 5 5, counter := 0, next := 0, buffer := none,
    events := [some ⟨10, ['o'], ['x']⟩], maxDelay := some 0 }

/-- An AnsiArt player state with `rate = 2`, stripping disabled and three
lines left in the file. -/
def ansiSample : AnsiState :=
  { player := initPlayer 5 5,
    file := [['a', 'b', '\n'], ['c', 'd', '\n'], ['e', 'f', '\n']],
    strip := false, rate := 2 }

/-- An AnsiArt player state whose file is exhausted. -/
def ansiEmpty : AnsiState :=
  { player := initPlayer 5 5, file := [], strip := false, rate := 2 }

/- ===== helper lemmas ===== -/

theorem drop_len_append (l₁ l₂ : List α) : (l₁ ++ l₂).drop l₁.length = l₂ := by
  simp

theorem writeCells_other_row (text : List Char) (f : ℤ → ℤ → Option (Char × Colours))
    (x y : ℤ) (col : Colours) (a b : ℤ) (hb : b ≠ y) :
    writeCells f text x y col a b = f a b := by
  induction text generalizing f x with
  | nil => rfl
  | cons c cs ih =>
      rw [writeCells, ih]
      simp [hb]

theorem pythonTake_length (k : ℤ) (l : List α) (hk : 0 ≤ k) :
    (pythonTake k l).length = min l.length k.toNat := by
  rw [pythonTake, if_neg (by omega)]
  simp [Nat.min_comm]

theorem pythonDrop_length (k : ℤ) (l : List α) (hk : 0 ≤ k) :
    (pythonDrop k l).length = l.length - k.toNat := by
  rw [pythonDrop, if_neg (by omega)]
  simp

theorem pythonTake_nonneg (k : ℤ) (l : List α) (hk : 0 ≤ k) :
    pythonTake k l = l.take k.toNat := by
  rw [pythonTake, if_neg (by omega)]

theorem pythonDrop_nonneg (k : ℤ) (l : List α) (hk : 0 ≤ k) :
    pythonDrop k l = l.drop k.toNat := by
  rw [pythonDrop, if_neg (by omega)]

/-- Projections of the wrap branch of the `DISPLAY_TEXT` handler. -/
theorem dispDisplay_wrap (s : PlayerState) (text : List Char)
    (h : s.cursorX + (text.length : ℤ) ≥ (s.canvas.width : ℤ)) :
    (dispDisplay s text).cursorX =
      ((pythonDrop ((s.canvas.width : ℤ) - s.cursorX) text).length : ℤ) ∧
    (dispDisplay s text).cursorY = s.cursorY + 1 ∧
    (dispDisplay s text).canvas.log =
      s.canvas.log ++
        [CanvasOp.printAt (pythonTake ((s.canvas.width : ℤ) - s.cursorX) text)
           s.cursorX s.cursorY s.colours,
         CanvasOp.printAt (pythonDrop ((s.canvas.width : ℤ) - s.cursorX) text)
           0 (s.cursorY + 1) s.colours] ++
        (if s.cursorY + 1 - s.canvas.startLine ≥ (s.canvas.height : ℤ)
         then [CanvasOp.scroll 1] else []) ∧
    (dispDisplay s text).canvas.cells =
      writeCells
        (writeCells s.canvas.cells (pythonTake ((s.canvas.width : ℤ) - s.cursorX) text)
          s.cursorX s.cursorY s.colours)
        (pythonDrop ((s.canvas.width : ℤ) - s.cursorX) text) 0 (s.cursorY + 1) s.colours := by
  by_cases hc : s.cursorY + 1 - s.canvas.startLine ≥ (s.canvas.height : ℤ)
  · simp [dispDisplay, if_pos h, printAtS, scrollS, Canvas.printAt, Canvas.scrollBy, hc]
  · simp [dispDisplay, if_pos h, printAtS, scrollS, Canvas.printAt, Canvas.scrollBy, hc]

/-- Projections of the no-wrap branch of the `DISPLAY_TEXT` handler. -/
theorem dispDisplay_fit (s : PlayerState) (text : List Char)
    (h : s.cursorX + (text.length : ℤ) < (s.canvas.width : ℤ)) :
    (dispDisplay s text).cursorX = s.cursorX + (text.length : ℤ) ∧
    (dispDisplay s text).cursorY = s.cursorY ∧
    (dispDisplay s text).canvas.log =
      s.canvas.log ++ [CanvasOp.printAt text s.cursorX s.cursorY s.colours] := by
  simp [dispDisplay, if_neg (not_le.mpr h), printAtS, Canvas.printAt]

/- ===== claim theorems ===== -/

/-- Claim C1, counterexample: the claimed invariant "no write outside the
declared width" is false.  A single `DisplayText` of length 5 on a width-2
canvas is split only once: the remainder `"cde"` is printed at column 0 of
the next row and spans columns 0..2, so the `print_at` call targets
column 2, outside `0..width-1`. -/
theorem claim1_counterexample :
    ((dispatchCommand (initPlayer 2 2)
        (Command.displayText ['a', 'b', 'c', 'd', 'e'])).canvas.log.all
      (colsWithinWidth 2)) = false := by
  decide

/-- Claim C1, amended: the cursor is never clamped, and a `DisplayText`
write stays within columns `0..width-1` only under the bounds
`0 ≤ cursor_x ≤ width` and `cursor_x + len(text) ≤ 2*width` (the wrap
splits exactly once, so a longer remainder runs past the width). -/
theorem claim1_theorem (s : PlayerState) (text : List Char)
    (h0 : 0 ≤ s.cursorX) (h1 : s.cursorX ≤ (s.canvas.width : ℤ))
    (h2 : s.cursorX + (text.length : ℤ) ≤ 2 * (s.canvas.width : ℤ)) :
    (((dispatchCommand s (Command.displayText text)).canvas.log.drop
        s.canvas.log.length).all (colsWithinWidth s.canvas.width)) = true := by
  show (((dispDisplay s text).canvas.log.drop s.canvas.log.length).all
    (colsWithinWidth s.canvas.width)) = true
  by_cases h : s.cursorX + (text.length : ℤ) ≥ (s.canvas.width : ℤ)
  · obtain ⟨-, -, hlog, -⟩ := dispDisplay_wrap s text h
    have hk : (0 : ℤ) ≤ (s.canvas.width : ℤ) - s.cursorX := by omega
    rw [hlog, List.append_assoc, drop_len_append]
    have hlen1 := pythonTake_length ((s.canvas.width : ℤ) - s.cursorX) text hk
    have hlen2 := pythonDrop_length ((s.canvas.width : ℤ) - s.cursorX) text hk
    simp only [List.all_append, List.all_cons, List.all_nil, colsWithinWidth,
      Bool.and_eq_true, Bool.or_eq_true, decide_eq_true_eq, List.isEmpty_iff]
    have hmin : (pythonTake ((s.canvas.width : ℤ) - s.cursorX) text).length ≤
        ((s.canvas.width : ℤ) - s.cursorX).toNat := by
      rw [hlen1]; exact Nat.min_le_right _ _
    refine ⟨⟨Or.inr ⟨h0, by omega⟩, Or.inr ⟨le_refl 0, by rw [hlen2]; omega⟩, trivial⟩, ?_⟩
    split <;> rfl
  · obtain ⟨-, -, hlog⟩ := dispDisplay_fit s text (by omega)
    rw [hlog, drop_len_append]
    simp only [List.all_cons, List.all_nil, colsWithinWidth, Bool.and_eq_true,
      Bool.or_eq_true, decide_eq_true_eq, List.isEmpty_iff]
    refine ⟨Or.inr ⟨h0, by omega⟩, trivial⟩

/-- Claim C1, witness for the amended theorem at a concrete state: width 4,
cursor at column 1, a six-character text (6 ≤ 2*4 - 1). -/
theorem claim1_witness :
    (((dispatchCommand { initPlayer 4 4 with cursorX := 1 }
        (Command.displayText ['a', 'b', 'c', 'd', 'e', 'f'])).canvas.log.drop
      ({ initPlayer 4 4 with cursorX := 1 } : PlayerState).canvas.log.length).all
      (colsWithinWidth ({ initPlayer 4 4 with cursorX := 1 } : PlayerState).canvas.width)) =
      true :=
  claim1_theorem { initPlayer 4 4 with cursorX := 1 } ['a', 'b', 'c', 'd', 'e', 'f']
    (by decide) (by decide) (by decide)

/-- Claim C2, counterexample: on a width-3 canvas a `DisplayText` of length
3 satisfies the claim's premise `cursor_x + len(text) ≤ width` (0 + 3 ≤ 3),
yet the code wraps (`>=` boundary): the cursor ends at column 0 of the next
row instead of column 3 of the same row. -/
theorem claim2_counterexample :
    (initPlayer 3 3).cursorX + (3 : ℤ) ≤ ((initPlayer 3 3).canvas.width : ℤ) ∧
    (dispatchCommand (initPlayer 3 3) (Command.displayText ['a', 'b', 'c'])).cursorX ≠
      (initPlayer 3 3).cursorX + (3 : ℤ) ∧
    (dispatchCommand (initPlayer 3 3) (Command.displayText ['a', 'b', 'c'])).cursorY ≠
      (initPlayer 3 3).cursorY := by
  refine ⟨by decide, by decide, by decide⟩

/-- Claim C2, amended: for a `DisplayText` whose text fits strictly within
the remaining row width (`cursor_x + len(text) < width`), the write happens
in place: `cursor_x` advances by `len(text)`, `cursor_y` is unchanged and
the only canvas mutation is one `print_at` at the current position (no
wrap).  At exact fit (`cursor_x + len(text) = width`) the code wraps. -/
theorem claim2_theorem (s : PlayerState) (text : List Char)
    (hfit : s.cursorX + (text.length : ℤ) < (s.canvas.width : ℤ)) :
    (dispatchCommand s (Command.displayText text)).cursorX =
      s.cursorX + (text.length : ℤ) ∧
    (dispatchCommand s (Command.displayText text)).cursorY = s.cursorY ∧
    (dispatchCommand s (Command.displayText text)).canvas.log =
      s.canvas.log ++ [CanvasOp.printAt text s.cursorX s.cursorY s.colours] :=
  dispDisplay_fit s text hfit

/-- Claim C2, witness: width 5, cursor at the origin, text of length 2. -/
theorem claim2_witness :
    (dispatchCommand (initPlayer 5 5) (Command.displayText ['h', 'i'])).cursorX =
      (initPlayer 5 5).cursorX + (2 : ℤ) ∧
    (dispatchCommand (initPlayer 5 5) (Command.displayText ['h', 'i'])).cursorY =
      (initPlayer 5 5).cursorY ∧
    (dispatchCommand (initPlayer 5 5) (Command.displayText ['h', 'i'])).canvas.log =
      (initPlayer 5 5).canvas.log ++
        [CanvasOp.printAt ['h', 'i'] (initPlayer 5 5).cursorX (initPlayer 5 5).cursorY
          (initPlayer 5 5).colours] :=
  claim2_theorem (initPlayer 5 5) ['h', 'i'] (by decide)

/-- Claim C3: a `DisplayText` that overflows the row
(`cursor_x + len(text) > width`, cursor within the row) is split exactly at
index `width - cursor_x`; the first part is printed at the current
position, the remainder at column 0 of the next row, `cursor_y` increments
by exactly 1, and the two printed parts concatenate back to the original
text (no character duplicated or dropped). -/
theorem claim3_theorem (s : PlayerState) (text : List Char)
    (h0 : 0 ≤ s.cursorX) (h1 : s.cursorX ≤ (s.canvas.width : ℤ))
    (hov : s.cursorX + (text.length : ℤ) > (s.canvas.width : ℤ)) :
    (dispatchCommand s (Command.displayText text)).canvas.log =
      s.canvas.log ++
        [CanvasOp.printAt (text.take ((s.canvas.width : ℤ) - s.cursorX).toNat)
           s.cursorX s.cursorY s.colours,
         CanvasOp.printAt (text.drop ((s.canvas.width : ℤ) - s.cursorX).toNat)
           0 (s.cursorY + 1) s.colours] ++
        (if s.cursorY + 1 - s.canvas.startLine ≥ (s.canvas.height : ℤ)
         then [CanvasOp.scroll 1] else []) ∧
    text.take ((s.canvas.width : ℤ) - s.cursorX).toNat ++
      text.drop ((s.canvas.width : ℤ) - s.cursorX).toNat = text ∧
    (dispatchCommand s (Command.displayText text)).cursorY = s.cursorY + 1 := by
  have hk : (0 : ℤ) ≤ (s.canvas.width : ℤ) - s.cursorX := by omega
  obtain ⟨-, hy, hlog, -⟩ := dispDisplay_wrap s text (by omega)
  simp only [dispatchCommand]
  refine ⟨?_, List.take_append_drop _ _, hy⟩
  rw [hlog, pythonTake_nonneg _ _ hk, pythonDrop_nonneg _ _ hk]

/-- Claim C3, witness: width 2, cursor at the origin, text of length 3. -/
theorem claim3_witness :
    (dispatchCommand (initPlayer 9 2) (Command.displayText ['x', 'y', 'z'])).canvas.log =
      (initPlayer 9 2).canvas.log ++
        [CanvasOp.printAt (['x', 'y', 'z'].take (((initPlayer 9 2).canvas.width : ℤ) -
             (initPlayer 9 2).cursorX).toNat)
           (initPlayer 9 2).cursorX (initPlayer 9 2).cursorY (initPlayer 9 2).colours,
         CanvasOp.printAt (['x', 'y', 'z'].drop (((initPlayer 9 2).canvas.width : ℤ) -
             (initPlayer 9 2).cursorX).toNat)
           0 ((initPlayer 9 2).cursorY + 1) (initPlayer 9 2).colours] ++
        (if (initPlayer 9 2).cursorY + 1 - (initPlayer 9 2).canvas.startLine ≥
            ((initPlayer 9 2).canvas.height : ℤ)
         then [CanvasOp.scroll 1] else []) ∧
    ['x', 'y', 'z'].take (((initPlayer 9 2).canvas.width : ℤ) -
        (initPlayer 9 2).cursorX).toNat ++
      ['x', 'y', 'z'].drop (((initPlayer 9 2).canvas.width : ℤ) -
        (initPlayer 9 2).cursorX).toNat = ['x', 'y', 'z'] ∧
    (dispatchCommand (initPlayer 9 2) (Command.displayText ['x', 'y', 'z'])).cursorY =
      (initPlayer 9 2).cursorY + 1 :=
  claim3_theorem (initPlayer 9 2) ['x', 'y', 'z'] (by decide) (by decide) (by decide)

/-- Claim C4, counterexample: on a width-2 canvas, `DisplayText "ab"` wraps
with an empty remainder (the split at `width - cursor_x = 2` leaves
nothing), yet the cursor does advance to the next row, contrary to the
claim. -/
theorem claim4_counterexample :
    pythonDrop (((initPlayer 2 2).canvas.width : ℤ) - (initPlayer 2 2).cursorX)
      ['a', 'b'] = [] ∧
    (dispatchCommand (initPlayer 2 2) (Command.displayText ['a', 'b'])).cursorY ≠
      (initPlayer 2 2).cursorY := by
  refine ⟨by decide, by decide⟩

/-- Claim C4, amended: when a `DisplayText` wraps with an empty remainder
(exact fit, `cursor_x + len(text) = width` with `0 ≤ cursor_x`), the cursor
does advance to column 0 of the next row, but the only print issued against
the next row is the empty remainder, so no cell of that row is modified: no
phantom blank row content is created on the canvas. -/
theorem claim4_theorem (s : PlayerState) (text : List Char)
    (h0 : 0 ≤ s.cursorX)
    (heq : s.cursorX + (text.length : ℤ) = (s.canvas.width : ℤ)) :
    (dispatchCommand s (Command.displayText text)).cursorX = 0 ∧
    (dispatchCommand s (Command.displayText text)).cursorY = s.cursorY + 1 ∧
    ∀ a : ℤ, (dispatchCommand s (Command.displayText text)).canvas.cells a (s.cursorY + 1) =
      s.canvas.cells a (s.cursorY + 1) := by
  have hk : (0 : ℤ) ≤ (s.canvas.width : ℤ) - s.cursorX := by omega
  obtain ⟨hx, hy, -, hcells⟩ := dispDisplay_wrap s text (by omega)
  have hdrop : pythonDrop ((s.canvas.width : ℤ) - s.cursorX) text = [] := by
    rw [pythonDrop_nonneg _ _ hk, List.drop_eq_nil_iff]
    omega
  simp only [dispatchCommand]
  refine ⟨by rw [hx, hdrop]; rfl, hy, fun a => ?_⟩
  rw [hcells, hdrop]
  show writeCells _ (pythonTake _ text) s.cursorX s.cursorY s.colours a (s.cursorY + 1) = _
  exact writeCells_other_row _ _ _ _ _ _ _ (by omega)

/-- Claim C4, witness: width 2, cursor at the origin, text of length 2;
the cursor advances but cell (0, 1) is untouched. -/
theorem claim4_witness :
    (dispatchCommand (initPlayer 7 2) (Command.displayText ['o', 'k'])).cursorX = 0 ∧
    (dispatchCommand (initPlayer 7 2) (Command.displayText ['o', 'k'])).cursorY =
      (initPlayer 7 2).cursorY + 1 ∧
    (dispatchCommand (initPlayer 7 2) (Command.displayText ['o', 'k'])).canvas.cells 0
        ((initPlayer 7 2).cursorY + 1) =
      (initPlayer 7 2).canvas.cells 0 ((initPlayer 7 2).cursorY + 1) := by
  obtain ⟨a, b, c⟩ := claim4_theorem (initPlayer 7 2) ['o', 'k'] (by decide) (by decide)
  exact ⟨a, b, c 0⟩

/-- Claim C9: `SaveCursor` immediately followed by `RestoreCursor` leaves
the cursor position unchanged, and the save memory is a single slot: a
`SaveCursor` always overwrites the slot with the current cursor position,
whatever was stored before. -/
theorem claim9_theorem (s : PlayerState) :
    (dispatchCommand (dispatchCommand s Command.saveCursor)
      Command.restoreCursor).cursorX = s.cursorX ∧
    (dispatchCommand (dispatchCommand s Command.saveCursor)
      Command.restoreCursor).cursorY = s.cursorY ∧
    (dispatchCommand s Command.saveCursor).saveX = s.cursorX ∧
    (dispatchCommand s Command.saveCursor).saveY = s.cursorY :=
  ⟨rfl, rfl, rfl, rfl⟩

/- ===== player-level helper lemmas ===== -/

theorem playContent_nil (p : PlayerState) : playContent p [] = p := rfl

theorem ansiLoop_some_nil (k : ℕ) (s : AnsiState) : ansiLoop k (some []) s = s := by
  cases k with
  | zero => rfl
  | succ m => simp [ansiLoop]

theorem ansiTick_eof (s : AnsiState) (hf : s.file = []) : ansiTick s = s := by
  obtain ⟨p, f, st, r⟩ := s
  simp only at hf
  subst hf
  show ansiLoop r none ⟨p, [], st, r⟩ = ⟨p, [], st, r⟩
  cases r with
  | zero => rfl
  | succ m =>
    have hstrip : (if st then rstripCRLF [] else []) = [] := by cases st <;> rfl
    simp only [ansiLoop, reduceCtorEq, if_neg, List.headD_nil, List.tail_nil, hstrip,
      playContent_nil]
    exact ansiLoop_some_nil m _

theorem ansiTick_iter_eof (k : ℕ) (s : AnsiState) (hf : s.file = []) :
    (ansiTick^[k]) s = s := by
  induction k with
  | zero => rfl
  | succ m ih => rw [Function.iterate_succ_apply', ih, ansiTick_eof s hf]

theorem ascRenderNow_halted (s : AscState) (he : s.events = [])
    (hb : truthyBuf s.buffer = false) :
    ascRenderNow s = { s with counter := s.counter + 1 / 20 } := by
  obtain ⟨p, c, n, b, evs, md⟩ := s
  simp only at he hb
  subst he
  have hflush : flushBuffer p b = (p, b) := by
    cases b with
    | none => rfl
    | some l =>
      cases l with
      | nil => rfl
      | cons a as => simp [truthyBuf] at hb
  simp only [ascRenderNow, hflush, ascLoop]
  split <;> rfl

/- ===== remaining claim theorems ===== -/

/-- Claim C5: `AsciinemaPlayer` construction succeeds exactly when the
header's version field equals 2; any other version is rejected with an
error before any state is built. -/
theorem claim5_theorem (header : AscHeader) (h w : Option ℕ) (md : Option ℚ)
    (evs : List (Option AscEvent)) :
    (∃ st, asciinemaInit header h w md evs = Except.ok st) ↔ header.version = 2 := by
  by_cases hv : header.version = 2
  · simp [asciinemaInit, hv]
  · simp [asciinemaInit, hv]

/-- Claim C6, counterexample: a malformed record does not end the stream.
In `ascMalformed` the next record is malformed JSON: the tick that reads it
returns normally and leaves the canvas untouched, but the very next tick
resumes reading at the following (well-formed, due) record and mutates the
canvas — so it is not the case that every subsequent tick is a no-op. -/
theorem claim6_counterexample :
    (ascRenderNow ascMalformed).player.canvas.log = ascMalformed.player.canvas.log ∧
    (ascRenderNow (ascRenderNow ascMalformed)).player.canvas.log ≠
      ascMalformed.player.canvas.log := by
  have e1 : ascRenderNow ascMalformed =
      { player := initPlayer 5 5, counter := 1 / 20, next := 0, buffer := none,
        events := [some ⟨0, ['o'], ['h', 'i']⟩], maxDelay := none } := by
    simp only [ascMalformed, ascRenderNow, flushBuffer, ascLoop]
    rw [if_pos (by norm_num : (0 : ℚ) + 1 / 20 ≥ 0)]
    norm_num
  have e2 : ascRenderNow (ascRenderNow ascMalformed) =
      { player := playContent (initPlayer 5 5) ['h', 'i'], counter := 1 / 20 + 1 / 20,
        next := 0, buffer := some ['h', 'i'], events := [], maxDelay := none } := by
    rw [e1]
    simp only [ascRenderNow, flushBuffer, ascLoop, List.isEmpty_cons]
    rw [if_pos (by norm_num : (1 : ℚ) / 20 + 1 / 20 ≥ 0)]
    rw [if_neg (by norm_num : ¬((0 : ℚ) > 1 / 20 + 1 / 20))]
    norm_num
  constructor
  · rw [e1]
    rfl
  · rw [e2]
    decide

/-- Claim C6, amended: only true exhaustion ends the stream.  Once the file
is exhausted and no payload is pending, every tick returns normally and is
a no-op on the player (canvas included); the scheduled event time and the
buffer stop changing, while the 0.05 tick counter still accrues.  (A
malformed record merely ends the current tick's reading; the next tick
resumes at the following record.) -/
theorem claim6_theorem (s : AscState) (he : s.events = [])
    (hb : truthyBuf s.buffer = false) (k : ℕ) :
    (ascRenderNow^[k] s).player = s.player ∧
    (ascRenderNow^[k] s).events = [] ∧
    (ascRenderNow^[k] s).next = s.next ∧
    (ascRenderNow^[k] s).buffer = s.buffer ∧
    (ascRenderNow^[k] s).counter = s.counter + (k : ℚ) * (1 / 20) := by
  induction k with
  | zero => simp [he]
  | succ m ih =>
    obtain ⟨ih1, ih2, ih3, ih4, ih5⟩ := ih
    rw [Function.iterate_succ_apply']
    rw [ascRenderNow_halted (ascRenderNow^[m] s) ih2 (by rw [ih4]; exact hb)]
    refine ⟨ih1, ih2, ih3, ih4, ?_⟩
    show (ascRenderNow^[m] s).counter + 1 / 20 = _
    rw [ih5]
    push_cast
    ring

/-- Claim C6, witness for the amended theorem: two ticks on an exhausted
state change nothing but the tick counter. -/
theorem claim6_witness :
    (ascRenderNow^[2] ascExhausted).player = ascExhausted.player ∧
    (ascRenderNow^[2] ascExhausted).events = [] ∧
    (ascRenderNow^[2] ascExhausted).next = ascExhausted.next ∧
    (ascRenderNow^[2] ascExhausted).buffer = ascExhausted.buffer ∧
    (ascRenderNow^[2] ascExhausted).counter =
      ascExhausted.counter + ((2 : ℕ) : ℚ) * (1 / 20) :=
  claim6_theorem ascExhausted rfl rfl 2

/-- Claim C7, counterexample: `max_delay = 0` is a constructed value, and
the gap to the next event (10 − 0.05) exceeds it, yet the clock is not set
to `next_event_time − max_delay = 10`: Python truthiness (`if
self._max_delay`) disables the clamp for a zero delay. -/
theorem claim7_counterexample :
    ascZeroDelay.maxDelay = some 0 ∧
    (10 : ℚ) - (ascZeroDelay.counter + 1 / 20) > 0 ∧
    (ascRenderNow ascZeroDelay).counter ≠ 10 - 0 := by
  have e1 : ascRenderNow ascZeroDelay =
      { player := initPlayer 5 5, counter := 0 + 1 / 20, next := 10, buffer := some ['x'],
        events := [], maxDelay := some 0 } := by
    simp only [ascZeroDelay, ascRenderNow, flushBuffer, ascLoop, clampDelay]
    rw [if_pos (by norm_num : (0 : ℚ) + 1 / 20 ≥ 0)]
    rw [if_pos (by norm_num : (10 : ℚ) > 0 + 1 / 20)]
    rw [if_neg (by simp : ¬((0 : ℚ) ≠ 0 ∧ (10 : ℚ) - (0 + 1 / 20) > 0))]
  refine ⟨rfl, by norm_num [ascZeroDelay], ?_⟩
  rw [e1]
  norm_num

/-- Claim C7, amended: with a non-zero `max_delay` `d`, whenever the
decoded event's timestamp exceeds the virtual clock by more than `d`, the
clock is set to `next_event_time − d`; the event itself is buffered as the
next to play and no later record is consumed, so the order in which events
are played is unchanged. -/
theorem claim7_theorem (d c n : ℚ) (b : Option (List Char)) (e : AscEvent)
    (rest : List (Option AscEvent)) (p : PlayerState)
    (hd : d ≠ 0) (ht : e.time > c) (hgap : e.time - c > d) :
    ascLoop (some d) c n b (some e :: rest) p =
      ⟨e.time - d, e.time, some e.payload, rest, p⟩ := by
  rw [ascLoop, if_pos ht, clampDelay, if_pos ⟨hd, hgap⟩]

/-- Claim C7, witness: `max_delay = 1/2`, clock at 1/20, next event at 10:
the clock jumps to 19/2 and the event is buffered. -/
theorem claim7_witness :
    ascLoop (some (1 / 2)) (1 / 20) 0 none [some ⟨10, ['o'], ['x']⟩] (initPlayer 2 2) =
      ⟨10 - 1 / 2, 10, some ['x'], [], initPlayer 2 2⟩ :=
  claim7_theorem (1 / 2) (1 / 20) 0 none ⟨10, ['o'], ['x']⟩ [] (initPlayer 2 2)
    (by norm_num) (by norm_num) (by norm_num)

/-- Claim C8: with `rate = 2` (stripping disabled) a tick on a file with at
least two lines remaining, the first of which is non-empty, consumes
exactly two lines; and once the file is exhausted every subsequent tick is
the identity on the whole state (canvas included), so ticks are idempotent
and the frame holds its last state. -/
theorem claim8_theorem (s : AnsiState) (k : ℕ) :
    (s.rate = 2 → ∀ l1 l2 rest, s.file = l1 :: l2 :: rest →
      (if s.strip then rstripCRLF l1 else l1) ≠ [] → (ansiTick s).file = rest) ∧
    (s.file = [] → (ansiTick^[k]) s = s) := by
  refine ⟨?_, ansiTick_iter_eof k s⟩
  intro hr l1 l2 rest hf hl1
  obtain ⟨p, f, st, r⟩ := s
  simp only at hr hf hl1
  subst hr
  subst hf
  show (ansiLoop 2 none ⟨p, l1 :: l2 :: rest, st, 2⟩).file = rest
  simp [ansiLoop, hl1]

/-- Claim C8, witness: a three-line file loses exactly its first two lines
in one tick, and three ticks on an exhausted state change nothing. -/
theorem claim8_witness :
    (ansiTick ansiSample).file = [['e', 'f', '\n']] ∧
    (ansiTick^[3]) ansiEmpty = ansiEmpty :=
  ⟨(claim8_theorem ansiSample 0).1 rfl ['a', 'b', '\n'] ['c', 'd', '\n']
      [['e', 'f', '\n']] rfl (by decide),
   (claim8_theorem ansiEmpty 3).2 rfl⟩

/-- Claim C10: an event whose payload is the empty string is never fed to
the screen player.  The flush path skips (and keeps) a falsy buffer; the
immediate-play path of the reading loop skips an empty due payload while
still storing its timestamp into the schedule; and a not-yet-due empty
payload is buffered with its timestamp scheduled, leaving the player
untouched. -/
theorem claim10_theorem :
    (∀ p : PlayerState, flushBuffer p (some []) = (p, some [])) ∧
    (∀ (md : Option ℚ) (c n : ℚ) (b : Option (List Char)) (e : AscEvent)
       (rest : List (Option AscEvent)) (p : PlayerState),
        e.payload = [] → ¬e.time > c →
        ascLoop md c n b (some e :: rest) p = ascLoop md c e.time (some []) rest p) ∧
    (∀ (md : Option ℚ) (c n : ℚ) (b : Option (List Char)) (e : AscEvent)
       (rest : List (Option AscEvent)) (p : PlayerState),
        e.payload = [] → e.time > c →
        (ascLoop md c n b (some e :: rest) p).player = p ∧
        (ascLoop md c n b (some e :: rest) p).buffer = some [] ∧
        (ascLoop md c n b (some e :: rest) p).next = e.time) := by
  refine ⟨fun p => rfl, ?_, ?_⟩
  · intro md c n b e rest p hp h
    rw [ascLoop, if_neg h, hp]
    rfl
  · intro md c n b e rest p hp h
    rw [ascLoop, if_pos h]
    exact ⟨rfl, by rw [hp], rfl⟩

/-- Claim C10, witness: concrete instances of all three skip paths for an
empty payload. -/
theorem claim10_witness :
    flushBuffer (initPlayer 2 2) (some []) = (initPlayer 2 2, some []) ∧
    ascLoop none 1 0 none [some ⟨0, ['o'], []⟩] (initPlayer 2 2) =
      ascLoop none 1 (0 : ℚ) (some []) [] (initPlayer 2 2) ∧
    (ascLoop none 0 0 none [some ⟨1, ['o'], []⟩] (initPlayer 2 2)).player =
      initPlayer 2 2 :=
  ⟨claim10_theorem.1 (initPlayer 2 2),
   claim10_theorem.2.1 none 1 0 none ⟨0, ['o'], []⟩ [] (initPlayer 2 2) rfl (by norm_num),
   (claim10_theorem.2.2 none 0 0 none ⟨1, ['o'], []⟩ [] (initPlayer 2 2) rfl
      (by norm_num)).1⟩
